import Mathlib

/-!
Verification of the DiaScript layout and connector-routing engine.

The definitions below are a shallow embedding of `src/diascript.js`
(the current version, i.e. the second document in that file).  JavaScript
numbers are modelled as rationals; `undefined`-able values as `Option`.
-/

namespace Diascript

/-- Padding as documented and accepted by `Box`: a plain number or a CSS-style
shorthand list of one to four numbers (`Box` constructor docs).  The JS value
space also physically admits other arrays, whose out-of-range indexing would
yield `undefined`; those are outside the documented domain and not modelled. -/
inductive Padding where
  | num (q : ℚ)
  | list1 (a : ℚ)
  | list2 (a b : ℚ)
  | list3 (a b c : ℚ)
  | list4 (a b c d : ℚ)
deriving DecidableEq

/-- Configuration of a `Vbox`/`Hbox` as set up by the `Graphic`/`Box`
constructors: declared position and size (absent = `undefined`), spacing and
padding (defaulted to 0 by the constructor), and the alignment keys (arbitrary
strings, absent = `undefined`).  Style-only attributes (fill, stroke, ...) are
copied verbatim by the constructor and never read by layout or routing, so
they are not carried here; the copying itself is modelled by `graphicProps`. -/
structure BoxCfg where
  id : Option String := none
  x : Option ℚ := none
  y : Option ℚ := none
  width : Option ℚ := none
  height : Option ℚ := none
  spacing : ℚ := 0
  padding : Padding := .num 0
  align : Option String := none
  valign : Option String := none
deriving DecidableEq

/-- Configuration of a `Text` leaf.  `width`/`height` are the dimensions
returned by the external text-measurement service (`Text.bbox`), which the
spec assumes deterministic; `Text.layout` copies them onto the shape. -/
structure TextCfg where
  id : Option String := none
  x : Option ℚ := none
  y : Option ℚ := none
  str : String := ""
  width : ℚ := 0
  height : ℚ := 0
deriving DecidableEq

/-- The shape tree: `Text` leaves and the two container variants. -/
inductive Shape where
  | text (cfg : TextCfg)
  | vbox (cfg : BoxCfg) (children : List Shape)
  | hbox (cfg : BoxCfg) (children : List Shape)

/-- Result of `layout()`: the node's computed `width`/`height` and, for each
child in order, the `dx`/`dy` offsets assigned by the parent together with the
child's own laid-out subtree. -/
inductive Laid where
  | node (width height : ℚ) (children : List (ℚ × ℚ × Laid))

def Laid.width : Laid → ℚ
  | .node w _ _ => w

def Laid.height : Laid → ℚ
  | .node _ h _ => h

def Laid.children : Laid → List (ℚ × ℚ × Laid)
  | .node _ _ cs => cs

/-- Source `Box.paddingNumber`: the padding when it is a plain number, else `null`.
(For the number 0 the JS code returns 0 through its falsy-check branch,
which is the same value.) -/
def paddingNumber : Padding → Option ℚ
  | .num q => some q
  | _ => none

/-- Source `Box.paddingTop`. -/
def paddingTop : Padding → ℚ
  | .num q => q
  | .list1 a => a
  | .list2 a _ => a
  | .list3 a _ _ => a
  | .list4 a _ _ _ => a

/-- Source `Box.paddingRight`: `padding[1]` when the list has more than one element,
else `padding[0]`. -/
def paddingRight : Padding → ℚ
  | .num q => q
  | .list1 a => a
  | .list2 _ b => b
  | .list3 _ b _ => b
  | .list4 _ b _ _ => b

/-- Source `Box.paddingBottom`. -/
def paddingBottom : Padding → ℚ
  | .num q => q
  | .list1 a => a
  | .list2 a _ => a
  | .list3 _ _ c => c
  | .list4 _ _ c _ => c

/-- Source `Box.paddingLeft`. -/
def paddingLeft : Padding → ℚ
  | .num q => q
  | .list1 a => a
  | .list2 _ b => b
  | .list3 _ b _ => b
  | .list4 _ _ _ d => d

/-- JavaScript `a || b` specialised to the final size assignments
`this.width = this.width || ...` in `Vbox.layout`/`Hbox.layout`:
`undefined` and `0` are falsy and fall back to the computed value. -/
def jsOr : Option ℚ → ℚ → ℚ
  | some v, x => if v = 0 then x else v
  | none, x => x

/-- The `switch (this.valign)` of the layout functions: leading space given
the extra (slack) on the vertical axis. -/
def topSpaceOf (valign : Option String) (extra : ℚ) : ℚ :=
  if valign = some "top" then 0
  else if valign = some "bottom" then extra
  else extra / 2

/-- The `switch (this.align)` of the layout functions: leading space given
the extra (slack) on the horizontal axis. -/
def leftSpaceOf (align : Option String) (extra : ℚ) : ℚ :=
  if align = some "left" then 0
  else if align = some "right" then extra
  else extra / 2

/-- The running accumulation `contentHeight += this.spacing` (for `i > 0`)
and `contentHeight += child.height` of the first loop of `Vbox.layout`
(resp. `contentWidth` in `Hbox.layout`), as a function of the child extents. -/
def contentAlong (spacing : ℚ) : List ℚ → ℚ
  | [] => 0
  | e :: es => es.foldl (fun acc x => acc + spacing + x) e

/-- The running accumulation `if (child.width > contentWidth) contentWidth =
child.width` (starting from 0) of the first loop of `Vbox.layout`
(resp. `contentHeight` in `Hbox.layout`). -/
def maxAccum (l : List ℚ) : ℚ :=
  l.foldl (fun m w => if w > m then w else m) 0

/-- The `extraSpaceH` computed for each child inside the second loop of
`Vbox.layout`. -/
def vboxChildExtraH (cfg : BoxCfg) (contentW cw : ℚ) : ℚ :=
  match cfg.width with
  | none => contentW - cw
  | some w => w - paddingLeft cfg.padding - paddingRight cfg.padding - cw

/-- The `extraSpaceV` computed for each child inside the second loop of
`Hbox.layout`. -/
def hboxChildExtraV (cfg : BoxCfg) (contentH ch : ℚ) : ℚ :=
  match cfg.height with
  | none => contentH - ch
  | some h => h - paddingTop cfg.padding - paddingBottom cfg.padding - ch

/-- The second loop of `Vbox.layout`: starting from the running coordinate
`y`, assign each child its `(dx, dy)` (the cross-axis offset is `dxOf` applied
to the child's width) and advance `y` by the child's height, adding `spacing`
before every child but the first.  Returns the placed children and the final
value of `y`. -/
def vplace (spacing : ℚ) (dxOf : ℚ → ℚ) : ℚ → List Laid → List (ℚ × ℚ × Laid) × ℚ
  | y, [] => ([], y)
  | y, [c] => ([(dxOf c.width, y, c)], y + c.height)
  | y, c :: c2 :: cs =>
    let r := vplace spacing dxOf (y + c.height + spacing) (c2 :: cs)
    ((dxOf c.width, y, c) :: r.1, r.2)

/-- The second loop of `Hbox.layout` (mirror image of `vplace`). -/
def hplace (spacing : ℚ) (dyOf : ℚ → ℚ) : ℚ → List Laid → List (ℚ × ℚ × Laid) × ℚ
  | x, [] => ([], x)
  | x, [c] => ([(x, dyOf c.height, c)], x + c.width)
  | x, c :: c2 :: cs =>
    let r := hplace spacing dyOf (x + c.width + spacing) (c2 :: cs)
    ((x, dyOf c.height, c) :: r.1, r.2)

/-- The `extraSpaceV` of `Vbox.layout`: 0 without a forced height, else the
forced height minus vertical paddings and content height. -/
def vboxExtraV (cfg : BoxCfg) (contentH : ℚ) : ℚ :=
  match cfg.height with
  | none => 0
  | some h => h - paddingTop cfg.padding - paddingBottom cfg.padding - contentH

/-- The `extraSpaceH` of `Hbox.layout` (mirror of `vboxExtraV`). -/
def hboxExtraH (cfg : BoxCfg) (contentW : ℚ) : ℚ :=
  match cfg.width with
  | none => 0
  | some w => w - paddingLeft cfg.padding - paddingRight cfg.padding - contentW

/-- The initial cursor `y = this.paddingTop() + topSpace` of `Vbox.layout`. -/
def vboxStartY (cfg : BoxCfg) (contentH : ℚ) : ℚ :=
  paddingTop cfg.padding + topSpaceOf cfg.valign (vboxExtraV cfg contentH)

/-- The initial cursor `x = this.paddingLeft() + leftSpace` of `Hbox.layout`. -/
def hboxStartX (cfg : BoxCfg) (contentW : ℚ) : ℚ :=
  paddingLeft cfg.padding + leftSpaceOf cfg.align (hboxExtraH cfg contentW)

/-- The assignment `child.dx = this.paddingLeft() + leftSpace` computed per child in the
second loop of `Vbox.layout`. -/
def vboxDxOf (cfg : BoxCfg) (contentW cw : ℚ) : ℚ :=
  paddingLeft cfg.padding + leftSpaceOf cfg.align (vboxChildExtraH cfg contentW cw)

/-- The assignment `child.dy = this.paddingTop() + topSpace` computed per child in the
second loop of `Hbox.layout`. -/
def hboxDyOf (cfg : BoxCfg) (contentH ch : ℚ) : ℚ :=
  paddingTop cfg.padding + topSpaceOf cfg.valign (hboxChildExtraV cfg contentH ch)

/-- Source `Vbox.layout` given the already laid-out children (the recursive calls
`child.layout()` are performed by `layout` below). -/
def vboxFinish (cfg : BoxCfg) (laid : List Laid) : Laid :=
  let contentW := maxAccum (laid.map Laid.width)
  let contentH := contentAlong cfg.spacing (laid.map Laid.height)
  let placed := vplace cfg.spacing (vboxDxOf cfg contentW) (vboxStartY cfg contentH) laid
  Laid.node
    (jsOr cfg.width (contentW + paddingLeft cfg.padding + paddingRight cfg.padding))
    (jsOr cfg.height (placed.2 + paddingBottom cfg.padding)) placed.1

/-- Source `Hbox.layout` given the already laid-out children. -/
def hboxFinish (cfg : BoxCfg) (laid : List Laid) : Laid :=
  let contentH := maxAccum (laid.map Laid.height)
  let contentW := contentAlong cfg.spacing (laid.map Laid.width)
  let placed := hplace cfg.spacing (hboxDyOf cfg contentH) (hboxStartX cfg contentW) laid
  Laid.node (jsOr cfg.width (placed.2 + paddingRight cfg.padding))
    (jsOr cfg.height (contentH + paddingTop cfg.padding + paddingBottom cfg.padding))
    placed.1

mutual

/-- Source `layout()`: `Text.layout` copies the measured dimensions; the box variants
lay out their children recursively and then run their respective arrangement
passes. -/
def layout : Shape → Laid
  | .text cfg => .node cfg.width cfg.height []
  | .vbox cfg cs => vboxFinish cfg (layoutList cs)
  | .hbox cfg cs => hboxFinish cfg (layoutList cs)

/-- The `children.forEach(child => child.layout())` part of the box layouts. -/
def layoutList : List Shape → List Laid
  | [] => []
  | s :: ss => layout s :: layoutList ss

end

/-! Rendering pass.  `render(x, y)` stores the absolute position on the node
(`Text.render` stores `y + 0.8 * height`, its baseline kludge) and emits the
drawing primitives.  We split the two effects: `place` builds the tree of
recorded absolute geometry that `shapeById`/`connectionPoints` consult, and
`prims` reads the primitives off that tree. -/

/-- A node as it stands after `render(x, y)`: its recorded absolute position,
its size, its `id`, and (for boxes) its children. -/
inductive Placed where
  | leafP (id : Option String) (x y width height : ℚ) (str : String)
  | boxP (id : Option String) (x y width height : ℚ) (children : List Placed)

def Placed.x : Placed → ℚ
  | .leafP _ x _ _ _ _ => x
  | .boxP _ x _ _ _ _ => x

def Placed.y : Placed → ℚ
  | .leafP _ _ y _ _ _ => y
  | .boxP _ _ y _ _ _ => y

def Placed.width : Placed → ℚ
  | .leafP _ _ _ w _ _ => w
  | .boxP _ _ _ w _ _ => w

def Placed.height : Placed → ℚ
  | .leafP _ _ _ _ h _ => h
  | .boxP _ _ _ _ h _ => h

def Placed.id : Placed → Option String
  | .leafP i _ _ _ _ _ => i
  | .boxP i _ _ _ _ _ => i

mutual

/-- Source `render(x, y)`, position-recording part.  A box stores `(x, y)` and
renders each child at `(x + child.dx, y + child.dy)`; a text leaf stores
`(x, y + 0.8 * height)` (the baseline kludge in `Text.render`).  The `Laid`
argument is the result of this node's `layout`, so its children list always
matches the shape's children list. -/
def place : Shape → Laid → ℚ → ℚ → Placed
  | .text cfg, laid, x, y =>
    .leafP cfg.id x (y + 4/5 * laid.height) laid.width laid.height cfg.str
  | .vbox cfg cs, laid, x, y =>
    .boxP cfg.id x y laid.width laid.height (placeChildren cs laid.children x y)
  | .hbox cfg cs, laid, x, y =>
    .boxP cfg.id x y laid.width laid.height (placeChildren cs laid.children x y)

def placeChildren : List Shape → List (ℚ × ℚ × Laid) → ℚ → ℚ → List Placed
  | [], _, _, _ => []
  | _ :: _, [], _, _ => []
  | s :: ss, (dx, dy, l) :: ls, x, y =>
    place s l (x + dx) (y + dy) :: placeChildren ss ls x y

end

/-- A drawing primitive ("pseudo-element"), carrying the data computed by the
respective `render` method.  Style-only attributes (colors, stroke widths) are
copied strings and are omitted; a marker primitive is recorded by the marker
name and the two endpoints that determine its transform (the actual transform,
built from the unit vector between them, is studied by `markerRender`). -/
inductive Prim where
  | rect (x y width height : ℚ)
  | textP (x y : ℚ) (str : String)
  | path (x0 y0 x1 y1 : ℚ)
  | marker (name : String) (x1 y1 x0 y0 : ℚ)
deriving DecidableEq

mutual

/-- The primitives emitted by `render`: a box emits its `rect` followed by the
children's primitives in order; a text leaf emits its `text` element at the
recorded (baseline-shifted) position. -/
def prims : Placed → List Prim
  | .leafP _ x y _ _ s => [.textP x y s]
  | .boxP _ x y w h cs => .rect x y w h :: primsList cs

def primsList : List Placed → List Prim
  | [] => []
  | p :: ps => prims p ++ primsList ps

end

mutual

/-- Source `Shape.shapeById`: this node if its `id` matches, else the first match in
a depth-first search of the children. -/
def shapeById : Placed → String → Option Placed
  | .leafP i x y w h s, target =>
    if i = some target then some (.leafP i x y w h s) else none
  | .boxP i x y w h cs, target =>
    if i = some target then some (.boxP i x y w h cs) else shapeByIdList cs target

/-- Source `Diagram.shapeById` and the child loop of `Shape.shapeById`: first match
across a list of shapes. -/
def shapeByIdList : List Placed → String → Option Placed
  | [], _ => none
  | p :: ps, target =>
    match shapeById p target with
    | some r => some r
    | none => shapeByIdList ps target

end

/-- A connection point `[x, y, nx, ny]`. -/
abbrev CPoint := ℚ × ℚ × ℚ × ℚ

/-- Source `Shape.connectionPoints`: the four side midpoints of the recorded
rectangle with outward unit normals. -/
def connectionPoints (s : Placed) : List CPoint :=
  let x0 := s.x
  let x1 := s.x + s.width / 2
  let x2 := s.x + s.width
  let y0 := s.y
  let y1 := s.y + s.height / 2
  let y2 := s.y + s.height
  [(x1, y0, 0, -1), (x2, y1, 1, 0), (x1, y2, 0, 1), (x0, y1, -1, 0)]

/-- The square of `distance([x0, y0], [x1, y1])`.  The JS code compares the
values of `Math.sqrt`, which is strictly monotone on nonnegatives, so every
comparison of distances in the source coincides with the comparison of the
squared distances used here (and the initial sentinel `1000000` of
`findConnectionPoints` becomes `1000000 * 1000000`). -/
def distanceSq (p q : CPoint) : ℚ :=
  (q.1 - p.1) * (q.1 - p.1) + (q.2.1 - p.2.1) * (q.2.1 - p.2.1)

/-- The nested `forEach` of `findConnectionPoints` that builds `pairs`:
all (fromPoint, toPoint) combinations, fromPoint-major, in enumeration
order. -/
def pairsOf (fromShape toShape : Placed) : List (CPoint × CPoint) :=
  (connectionPoints fromShape).flatMap
    (fun fp => (connectionPoints toShape).map (fun tp => (fp, tp)))

/-- One step of the selection loop of `findConnectionPoints`: replace the
best candidate so far when this pair's distance is strictly smaller. -/
def selStep (best : Option CPoint × Option CPoint × ℚ) (p : CPoint × CPoint) :
    Option CPoint × Option CPoint × ℚ :=
  if distanceSq p.1 p.2 < best.2.2 then (some p.1, some p.2, distanceSq p.1 p.2) else best

/-- Source `findConnectionPoints`: exhaustive scan of all candidate pairs, keeping
the first pair strictly below the running minimum, which starts at the
sentinel `1000000` (squared here, see `distanceSq`).  When no pair beats the
sentinel both returned points remain `undefined`. -/
def findConnectionPoints (fromShape toShape : Placed) : Option CPoint × Option CPoint :=
  let r := (pairsOf fromShape toShape).foldl selStep (none, none, 1000000 * 1000000)
  (r.1, r.2.1)

/-- Specification-side description of the selection loop: the first pair
whose (squared) distance is below the threshold `d0`, later replaced only by
a strict improvement — i.e. the first pair attaining the minimum, provided
some pair beats `d0`. -/
def selSpec (d0 : ℚ) : List (CPoint × CPoint) → Option (CPoint × CPoint)
  | [] => none
  | p :: ps =>
    if distanceSq p.1 p.2 < d0 then
      match selSpec (distanceSq p.1 p.2) ps with
      | none => some p
      | some q => some q
    else selSpec d0 ps

/-! Lines and markers. -/

/-- A `Line` as set up by its constructor: the two endpoint shape ids and the
optional marker names (`from_marker`/`to_marker` props, stored under the
dash-renamed keys).  `from`/`to` are Lean keywords, hence `fromId`/`toId`. -/
structure LineCfg where
  fromId : Option String := none
  toId : Option String := none
  fromMarker : Option String := none
  toMarker : Option String := none
deriving DecidableEq

/-- An entry of the global marker registry (`Arrow` geometry). -/
structure MarkerDef where
  length : ℚ
  width : ℚ
deriving DecidableEq

/-- The global registry: `{ 'arrow': new Arrow({ fill: 'black' }) }`,
with `Arrow`'s default `length = 12`, `width = 8`. -/
def markers (name : String) : Option MarkerDef :=
  if name = "arrow" then some ⟨12, 8⟩ else none

/-- Source `Line.renderMarker`: nothing when the marker id is falsy (`undefined` or
the empty string) or unknown (warning); otherwise the marker primitive at
`thisPoint` oriented toward `otherPoint`. -/
def renderMarker (markerId : Option String) (thisPoint otherPoint : ℚ × ℚ) : Option Prim :=
  match markerId with
  | none => none
  | some mid =>
    if mid = "" then none
    else
      match markers mid with
      | none => none
      | some _ => some (.marker mid thisPoint.1 thisPoint.2 otherPoint.1 otherPoint.2)

/-- Source `Line.render`: `undefined` (no primitives, a warning) when `from`/`to` is
missing or does not resolve; otherwise the straight path between the selected
connection points followed by the optional end markers (`appendSvgElement`
ignores the `undefined` entries of the returned array, modelled by
`Option.toList`).  When the selected points themselves are `undefined` (shapes
further apart than the sentinel, see `findConnectionPoints`) the JS code
throws while destructuring and appends nothing; modelled as no output. -/
def lineRender (forest : List Placed) (l : LineCfg) : Option (List Prim) :=
  match l.fromId with
  | none => none
  | some f =>
    match l.toId with
    | none => none
    | some t =>
      match shapeByIdList forest f with
      | none => none
      | some fromShape =>
        match shapeByIdList forest t with
        | none => none
        | some toShape =>
          match findConnectionPoints fromShape toShape with
          | (some fp, some tp) =>
            some ([Prim.path fp.1 fp.2.1 tp.1 tp.2.1]
              ++ (renderMarker l.fromMarker (fp.1, fp.2.1) (tp.1, tp.2.1)).toList
              ++ (renderMarker l.toMarker (tp.1, tp.2.1) (fp.1, fp.2.1)).toList)
          | _ => none

/-! The diagram assembler. -/

def shapeX : Shape → Option ℚ
  | .text cfg => cfg.x
  | .vbox cfg _ => cfg.x
  | .hbox cfg _ => cfg.x

def shapeY : Shape → Option ℚ
  | .text cfg => cfg.y
  | .vbox cfg _ => cfg.y
  | .hbox cfg _ => cfg.y

/-- The shape pass of `Diagram.renderInto`: a top-level shape without both
`x` and `y` is skipped with a warning; otherwise it is laid out and rendered
at its declared position. -/
def placeShape (s : Shape) : Option Placed :=
  match shapeX s, shapeY s with
  | some x, some y => some (place s (layout s) x y)
  | _, _ => none

/-- Source `Diagram.renderInto`: render every placeable top-level shape in order,
then every line; a line whose `render` returns `undefined` contributes
nothing.  (`shapeById` is modelled as searching the rendered forest; this
matches the JS search over the mutated shape objects whenever every top-level
shape was placed, which is a hypothesis of the theorems using this
definition.) -/
def diagramRender (shapes : List Shape) (lines : List LineCfg) : List Prim :=
  let placed := shapes.filterMap placeShape
  primsList placed ++ lines.foldl (fun acc l => acc ++ (lineRender placed l).getD []) []

/-- Source `Diagram.shrinkWrap` on the recorded top-level geometry `(x, y, width,
height)`: `undefined` when there are no shapes (a warning); otherwise the
`(width, height)` written onto the canvas.  `Math.min(...)`/`Math.max(...)`
over a nonempty list are modelled by folding from the first element. -/
def shrinkWrap (shapes : List (ℚ × ℚ × ℚ × ℚ)) : Option (ℚ × ℚ) :=
  match shapes with
  | [] => none
  | s :: ss =>
    let left := max 0 ((ss.map (fun r => r.1)).foldl min s.1)
    let top := max 0 ((ss.map (fun r => r.2.1)).foldl min s.2.1)
    let right := (ss.map (fun r => r.1 + r.2.2.1)).foldl max (s.1 + s.2.2.1)
    let bottom := (ss.map (fun r => r.2.1 + r.2.2.2)).foldl max (s.2.1 + s.2.2.2)
    some (left + right, top + bottom)

/-- Source `Marker.render` at a point `[x, y, nx, ny]`: the six entries of the
emitted `matrix(nx, ny, -ny, nx, x, y)` transform. -/
def markerRender (point : CPoint) : ℚ × ℚ × ℚ × ℚ × ℚ × ℚ :=
  (point.2.2.1, point.2.2.2, -point.2.2.2, point.2.2.1, point.1, point.2.1)

/-- The `markerPoint` built by `Line.renderMarker`: the endpoint together
with the normal `((x0 - x1) / d, (y0 - y1) / d)`, where `d` is the distance
between the two points (passed in here, characterised by the hypotheses of
the theorem about it, since square roots leave ℚ). -/
def markerPoint (x1 y1 x0 y0 d : ℚ) : CPoint :=
  (x1, y1, (x0 - x1) / d, (y0 - y1) / d)

/-! `Graphic`'s constructor: property keys are copied with
`k.replace('_', '-')`, which replaces only the first occurrence. -/

/-- JS `String.prototype.replace` with a plain-string pattern replaces only the
first occurrence: scan for the first underscore and replace it. -/
def replaceFirstUnderscore : List Char → List Char
  | [] => []
  | c :: cs => if c = '_' then '-' :: cs else c :: replaceFirstUnderscore cs

/-- The key under which the `Graphic`/`Line` constructors store a prop. -/
def graphicKey (k : String) : String :=
  ⟨replaceFirstUnderscore k.data⟩

/-- The `for (const k in props) this[k.replace('_', '-')] = props[k]` loop of
the `Graphic` and `Line` constructors, on a props object given as an
association list. -/
def graphicProps {α : Type} (props : List (String × α)) : List (String × α) :=
  props.map (fun kv => (graphicKey kv.1, kv.2))

/-! State of the shape tree after a run of `layout()`.  The JS layout pass
mutates `this.width`/`this.height`, so a second run of `layout()` sees the
first run's computed sizes in the declared slots.  `commit` writes a layout
result back onto the tree exactly as the mutation leaves it: box sizes become
defined, everything else (including `Text`, whose `layout` recomputes its
size from the deterministic measurement) is unchanged. -/

mutual

def commit : Shape → Laid → Shape
  | .text cfg, _ => .text cfg
  | .vbox cfg cs, l =>
    .vbox { cfg with width := some l.width, height := some l.height } (commitList cs l.children)
  | .hbox cfg cs, l =>
    .hbox { cfg with width := some l.width, height := some l.height } (commitList cs l.children)

def commitList : List Shape → List (ℚ × ℚ × Laid) → List Shape
  | [], _ => []
  | s :: ss, [] => s :: ss
  | s :: ss, (_, _, l) :: ls => commit s l :: commitList ss ls

end

mutual

/-- No box in the tree declares a width or height equal to 0.  (A declared 0
is falsy for the final `this.width = this.width || ...` assignments, so it is
replaced by the computed size on the first layout run.) -/
def noZeroSize : Shape → Bool
  | .text _ => true
  | .vbox cfg cs => cfg.width ≠ some 0 && cfg.height ≠ some 0 && noZeroSizeList cs
  | .hbox cfg cs => cfg.width ≠ some 0 && cfg.height ≠ some 0 && noZeroSizeList cs

/-- Predicate `noZeroSize` over a children list. -/
def noZeroSizeList : List Shape → Bool
  | [] => true
  | s :: ss => noZeroSize s && noZeroSizeList ss

end

/-- The `dx` recorded on the `i`-th child. -/
def childDx (l : Laid) (i : ℕ) : Option ℚ :=
  (l.children[i]?).map (fun c => c.1)

/-- The `dy` recorded on the `i`-th child. -/
def childDy (l : Laid) (i : ℕ) : Option ℚ :=
  (l.children[i]?).map (fun c => c.2.1)

/-- The laid-out subtree of the `i`-th child. -/
def childLaid (l : Laid) (i : ℕ) : Option Laid :=
  (l.children[i]?).map (fun c => c.2.2)

/-- Structural induction over the shape tree with the membership form of the
child hypothesis. -/
theorem shape_induction (P : Shape → Prop)
    (htext : ∀ cfg, P (.text cfg))
    (hvbox : ∀ cfg cs, (∀ c ∈ cs, P c) → P (.vbox cfg cs))
    (hhbox : ∀ cfg cs, (∀ c ∈ cs, P c) → P (.hbox cfg cs)) :
    ∀ s, P s
  | .text cfg => htext cfg
  | .vbox cfg cs =>
    hvbox cfg cs (fun c hc => shape_induction P htext hvbox hhbox c)
  | .hbox cfg cs =>
    hhbox cfg cs (fun c hc => shape_induction P htext hvbox hhbox c)
termination_by s => sizeOf s
decreasing_by
  · have := List.sizeOf_lt_of_mem hc
    simp only [Shape.vbox.sizeOf_spec]
    omega
  · have := List.sizeOf_lt_of_mem hc
    simp only [Shape.hbox.sizeOf_spec]
    omega

/-! Auxiliary lemmas. -/

theorem foldl_min_le_init (l : List ℚ) (a : ℚ) : l.foldl min a ≤ a := by
  induction l generalizing a with
  | nil => simp
  | cons x xs ih =>
    simpa using le_trans (ih (min a x)) (min_le_left a x)

theorem foldl_min_le_mem (l : List ℚ) (a : ℚ) {x : ℚ} (hx : x ∈ l) :
    l.foldl min a ≤ x := by
  induction l generalizing a with
  | nil => cases hx
  | cons y ys ih =>
    rcases List.mem_cons.mp hx with h | h
    · subst h
      simpa using le_trans (foldl_min_le_init ys (min a x)) (min_le_right a x)
    · simpa using ih (min a y) h

theorem foldl_min_cases (l : List ℚ) (a : ℚ) :
    l.foldl min a = a ∨ l.foldl min a ∈ l := by
  induction l generalizing a with
  | nil => simp
  | cons x xs ih =>
    rcases ih (min a x) with h | h
    · rcases min_choice a x with hm | hm
      · left
        simpa [hm] using h
      · right
        simp only [List.foldl_cons] at *
        rw [h, hm]
        exact List.mem_cons_self x xs
    · right
      simpa using List.mem_cons_of_mem x h

theorem foldl_max_init_le (l : List ℚ) (a : ℚ) : a ≤ l.foldl max a := by
  induction l generalizing a with
  | nil => simp
  | cons x xs ih =>
    simpa using le_trans (le_max_left a x) (ih (max a x))

theorem foldl_max_mem_le (l : List ℚ) (a : ℚ) {x : ℚ} (hx : x ∈ l) :
    x ≤ l.foldl max a := by
  induction l generalizing a with
  | nil => cases hx
  | cons y ys ih =>
    rcases List.mem_cons.mp hx with h | h
    · subst h
      simpa using le_trans (le_max_right a x) (foldl_max_init_le ys (max a x))
    · simpa using ih (max a y) h

theorem foldl_max_cases (l : List ℚ) (a : ℚ) :
    l.foldl max a = a ∨ l.foldl max a ∈ l := by
  induction l generalizing a with
  | nil => simp
  | cons x xs ih =>
    rcases ih (max a x) with h | h
    · rcases max_choice a x with hm | hm
      · left
        simpa [hm] using h
      · right
        simp only [List.foldl_cons] at *
        rw [h, hm]
        exact List.mem_cons_self x xs
    · right
      simpa using List.mem_cons_of_mem x h

theorem foldl_addspace_shift (S : ℚ) (es : List ℚ) (a b : ℚ) :
    es.foldl (fun acc x => acc + S + x) (a + b)
      = a + es.foldl (fun acc x => acc + S + x) b := by
  induction es generalizing b with
  | nil => simp
  | cons e es ih =>
    simp only [List.foldl_cons]
    rw [show a + b + S + e = a + (b + S + e) by ring, ih]

theorem contRat_cons2 (S e1 e2 : ℚ) (es : List ℚ) :
    contentAlong S (e1 :: e2 :: es) = e1 + S + contentAlong S (e2 :: es) := by
  simp only [contentAlong, List.foldl_cons]
  rw [show e1 + S + e2 = (e1 + S) + e2 by ring, foldl_addspace_shift]

theorem contentAlong_eq (S : ℚ) (l : List ℚ) :
    contentAlong S l = l.sum + ((l.length - 1 : ℕ) : ℚ) * S := by
  match l with
  | [] => simp [contentAlong]
  | [e] => simp [contentAlong]
  | e1 :: e2 :: es =>
    rw [contRat_cons2, contentAlong_eq S (e2 :: es)]
    simp only [List.sum_cons, List.length_cons, Nat.add_sub_cancel]
    push_cast
    ring

theorem ite_gt_max (m w : ℚ) : (if w > m then w else m) = max m w := by
  split_ifs with h
  · exact (max_eq_right (le_of_lt h)).symm
  · exact (max_eq_left (le_of_not_lt h)).symm

theorem foldr_max_shift (xs : List ℚ) (a b : ℚ) :
    xs.foldr max (max a b) = max a (xs.foldr max b) := by
  induction xs with
  | nil => rfl
  | cons x xs ih =>
    simp only [List.foldr_cons, ih]
    rw [max_left_comm]

theorem foldl_max_eq_foldr (l : List ℚ) (a : ℚ) :
    l.foldl max a = l.foldr max a := by
  induction l generalizing a with
  | nil => rfl
  | cons x xs ih =>
    simp only [List.foldl_cons, List.foldr_cons, ih (max a x)]
    rw [max_comm a x, foldr_max_shift]

theorem maxAccum_eq_foldr (l : List ℚ) : maxAccum l = l.foldr max 0 := by
  have hfun : (fun (m w : ℚ) => if w > m then w else m) = (fun (m w : ℚ) => max m w) := by
    funext m w
    exact ite_gt_max m w
  rw [maxAccum, hfun, foldl_max_eq_foldr]

theorem vplace_snd (S : ℚ) (f : ℚ → ℚ) (y : ℚ) (l : List Laid) :
    (vplace S f y l).2 = y + contentAlong S (l.map Laid.height) := by
  match l with
  | [] => simp [vplace, contentAlong]
  | [c] => simp [vplace, contentAlong]
  | c :: c2 :: cs =>
    rw [vplace]
    simp only []
    rw [vplace_snd S f (y + c.height + S) (c2 :: cs)]
    simp only [List.map_cons]
    rw [contRat_cons2]
    ring

theorem hplace_snd (S : ℚ) (f : ℚ → ℚ) (x : ℚ) (l : List Laid) :
    (hplace S f x l).2 = x + contentAlong S (l.map Laid.width) := by
  match l with
  | [] => simp [hplace, contentAlong]
  | [c] => simp [hplace, contentAlong]
  | c :: c2 :: cs =>
    rw [hplace]
    simp only []
    rw [hplace_snd S f (x + c.width + S) (c2 :: cs)]
    simp only [List.map_cons]
    rw [contRat_cons2]
    ring

theorem vplace_map (S : ℚ) (f : ℚ → ℚ) (y : ℚ) (l : List Laid) :
    (vplace S f y l).1.map (fun e => (e.1, e.2.2))
      = l.map (fun c => (f (Laid.width c), c)) := by
  match l with
  | [] => simp [vplace]
  | [c] => simp [vplace]
  | c :: c2 :: cs =>
    rw [vplace]
    simp only [List.map_cons]
    rw [vplace_map S f (y + c.height + S) (c2 :: cs)]
    simp

theorem hplace_map (S : ℚ) (f : ℚ → ℚ) (x : ℚ) (l : List Laid) :
    (hplace S f x l).1.map (fun e => (e.2.1, e.2.2))
      = l.map (fun c => (f (Laid.height c), c)) := by
  match l with
  | [] => simp [hplace]
  | [c] => simp [hplace]
  | c :: c2 :: cs =>
    rw [hplace]
    simp only [List.map_cons]
    rw [hplace_map S f (x + c.width + S) (c2 :: cs)]
    simp

theorem vplace_thirds (S : ℚ) (f : ℚ → ℚ) (y : ℚ) (l : List Laid) :
    (vplace S f y l).1.map (fun e => e.2.2) = l := by
  match l with
  | [] => simp [vplace]
  | [c] => simp [vplace]
  | c :: c2 :: cs =>
    rw [vplace]
    simp only [List.map_cons]
    rw [vplace_thirds S f (y + c.height + S) (c2 :: cs)]

theorem hplace_thirds (S : ℚ) (f : ℚ → ℚ) (x : ℚ) (l : List Laid) :
    (hplace S f x l).1.map (fun e => e.2.2) = l := by
  match l with
  | [] => simp [hplace]
  | [c] => simp [hplace]
  | c :: c2 :: cs =>
    rw [hplace]
    simp only [List.map_cons]
    rw [hplace_thirds S f (x + c.width + S) (c2 :: cs)]

theorem vplace_head (S : ℚ) (f : ℚ → ℚ) (y : ℚ) (c : Laid) (l : List Laid) :
    (vplace S f y (c :: l)).1[0]? = some (f (Laid.width c), y, c) := by
  cases l with
  | nil => simp [vplace]
  | cons c2 cs => simp [vplace]

theorem hplace_head (S : ℚ) (f : ℚ → ℚ) (x : ℚ) (c : Laid) (l : List Laid) :
    (hplace S f x (c :: l)).1[0]? = some (x, f (Laid.height c), c) := by
  cases l with
  | nil => simp [hplace]
  | cons c2 cs => simp [hplace]

theorem topSpaceOf_zero (v : Option String) : topSpaceOf v 0 = 0 := by
  unfold topSpaceOf
  split_ifs <;> norm_num

theorem leftSpaceOf_zero (a : Option String) : leftSpaceOf a 0 = 0 := by
  unfold leftSpaceOf
  split_ifs <;> norm_num

theorem layoutList_eq_map (cs : List Shape) : layoutList cs = cs.map layout := by
  induction cs with
  | nil => rfl
  | cons s ss ih => rw [layoutList, ih, List.map_cons]

theorem layoutList_length (cs : List Shape) : (layoutList cs).length = cs.length := by
  rw [layoutList_eq_map, List.length_map]

theorem vboxFinish_height_none (cfg : BoxCfg) (L : List Laid) (hh : cfg.height = none) :
    (vboxFinish cfg L).height
      = paddingTop cfg.padding + contentAlong cfg.spacing (L.map Laid.height)
        + paddingBottom cfg.padding := by
  simp only [vboxFinish, vboxStartY, vboxExtraV, hh, jsOr, Laid.height, vplace_snd,
    topSpaceOf_zero]
  ring

theorem vboxFinish_width_none (cfg : BoxCfg) (L : List Laid) (hw : cfg.width = none) :
    (vboxFinish cfg L).width
      = maxAccum (L.map Laid.width) + paddingLeft cfg.padding + paddingRight cfg.padding := by
  simp only [vboxFinish, hw, jsOr, Laid.width]

theorem hboxFinish_width_none (cfg : BoxCfg) (L : List Laid) (hw : cfg.width = none) :
    (hboxFinish cfg L).width
      = paddingLeft cfg.padding + contentAlong cfg.spacing (L.map Laid.width)
        + paddingRight cfg.padding := by
  simp only [hboxFinish, hboxStartX, hboxExtraH, hw, jsOr, Laid.width, hplace_snd,
    leftSpaceOf_zero]
  ring

theorem hboxFinish_height_none (cfg : BoxCfg) (L : List Laid) (hh : cfg.height = none) :
    (hboxFinish cfg L).height
      = maxAccum (L.map Laid.height) + paddingTop cfg.padding + paddingBottom cfg.padding := by
  simp only [hboxFinish, hh, jsOr, Laid.height]

/-! Claim C4. -/

/-- C4: the padding accessors resolve the declared padding per the CSS
shorthand rule: a plain number (in particular the constructor's default 0 for
absent padding) gives all four edges that number; `[a]` gives all edges `a`;
`[a,b]` gives top=bottom=a, left=right=b; `[a,b,c]` gives top=a,
right=left=b, bottom=c; `[a,b,c,d]` gives top=a, right=b, bottom=c,
left=d. -/
theorem C4_padding_shorthand (a b c d : ℚ) :
    (paddingTop (.num a) = a ∧ paddingRight (.num a) = a
      ∧ paddingBottom (.num a) = a ∧ paddingLeft (.num a) = a)
    ∧ (paddingTop (.list1 a) = a ∧ paddingRight (.list1 a) = a
      ∧ paddingBottom (.list1 a) = a ∧ paddingLeft (.list1 a) = a)
    ∧ (paddingTop (.list2 a b) = a ∧ paddingBottom (.list2 a b) = a
      ∧ paddingLeft (.list2 a b) = b ∧ paddingRight (.list2 a b) = b)
    ∧ (paddingTop (.list3 a b c) = a ∧ paddingRight (.list3 a b c) = b
      ∧ paddingLeft (.list3 a b c) = b ∧ paddingBottom (.list3 a b c) = c)
    ∧ (paddingTop (.list4 a b c d) = a ∧ paddingRight (.list4 a b c d) = b
      ∧ paddingBottom (.list4 a b c d) = c ∧ paddingLeft (.list4 a b c d) = d)
    ∧ (paddingTop (.num 0) = 0 ∧ paddingRight (.num 0) = 0
      ∧ paddingBottom (.num 0) = 0 ∧ paddingLeft (.num 0) = 0) :=
  ⟨⟨rfl, rfl, rfl, rfl⟩, ⟨rfl, rfl, rfl, rfl⟩, ⟨rfl, rfl, rfl, rfl⟩,
    ⟨rfl, rfl, rfl, rfl⟩, ⟨rfl, rfl, rfl, rfl⟩, ⟨rfl, rfl, rfl, rfl⟩⟩

/-! Claim C10. -/

/-- C10: the `Graphic`/`Line` constructors copy every prop onto the object
with only the first underscore of the key replaced by a dash: a key with no
underscore is unchanged; a key `a_b` (with no underscore in `a`) becomes
`a-b` with `b` untouched; in particular `stroke_width` becomes
`stroke-width`, `from_marker` becomes `from-marker`, and later underscores
survive (`a_b_c` becomes `a-b_c`).  Every prop is copied under its renamed
key. -/
theorem C10_first_underscore_dashed :
    (∀ (l1 l2 : List Char), '_' ∉ l1 →
        replaceFirstUnderscore (l1 ++ '_' :: l2) = l1 ++ '-' :: l2)
    ∧ (∀ l : List Char, '_' ∉ l → replaceFirstUnderscore l = l)
    ∧ graphicKey "stroke_width" = "stroke-width"
    ∧ graphicKey "from_marker" = "from-marker"
    ∧ graphicKey "a_b_c" = "a-b_c"
    ∧ (∀ (props : List (String × String)) (k v : String), (k, v) ∈ props →
        (graphicKey k, v) ∈ graphicProps props) := by
  refine ⟨?_, ?_, by decide, by decide, by decide, ?_⟩
  · intro l1 l2 h1
    induction l1 with
    | nil => simp [replaceFirstUnderscore]
    | cons c cs ih =>
      have hc : c ≠ '_' := fun h => h1 (h ▸ List.mem_cons_self c cs)
      have hcs : '_' ∉ cs := fun h => h1 (List.mem_cons_of_mem c h)
      simp [replaceFirstUnderscore, hc, ih hcs]
  · intro l hl
    induction l with
    | nil => rfl
    | cons c cs ih =>
      have hc : c ≠ '_' := fun h => hl (h ▸ List.mem_cons_self c cs)
      have hcs : '_' ∉ cs := fun h => hl (List.mem_cons_of_mem c h)
      simp [replaceFirstUnderscore, hc, ih hcs]
  · intro props k v hkv
    exact List.mem_map.mpr ⟨(k, v), hkv, rfl⟩

/-- Witness for C10 at a concrete key. -/
theorem C10_witness : replaceFirstUnderscore ['s', '_', 'w'] = ['s', '-', 'w'] :=
  C10_first_underscore_dashed.1 ['s'] ['w'] (by decide)

/-! Claim C7 (corrected: the spec example miscomputes `top`; the code gives
canvas height 60, not 50, on that input). -/

/-- The spec's concrete example contradicts the spec's own formula (which the
code implements): for shapes at (10,10,40,20) and (-5,30,20,20), `top =
max(0, min(10, 30)) = 10` and `bottom = 50`, so the canvas is (50, 60) — not
the (50, 50) the claim asserts. -/
theorem C7_counterexample :
    shrinkWrap [(10, 10, 40, 20), (-5, 30, 20, 20)] = some (50, 60)
    ∧ shrinkWrap [(10, 10, 40, 20), (-5, 30, 20, 20)] ≠ some (50, 50) := by
  constructor
  · simp [shrinkWrap]
    norm_num
  · simp [shrinkWrap]
    norm_num

/-- C7 (amended): for a nonempty shape list, `shrinkWrap` sets the canvas to
`(max 0 xmin + right, max 0 ymin + bottom)` where `xmin`/`ymin` are the least
recorded `x`/`y` and `right`/`bottom` the greatest `x+width`/`y+height`; on
the example shapes (10,10,40,20) and (-5,30,20,20) this yields (50, 60). -/
theorem C7_shrink_wrap :
    (∀ (s : ℚ × ℚ × ℚ × ℚ) (ss : List (ℚ × ℚ × ℚ × ℚ)),
      ∃ xmin ymin right bottom,
        shrinkWrap (s :: ss) = some (max 0 xmin + right, max 0 ymin + bottom)
        ∧ (∀ r ∈ s :: ss, xmin ≤ r.1) ∧ (∃ r ∈ s :: ss, r.1 = xmin)
        ∧ (∀ r ∈ s :: ss, ymin ≤ r.2.1) ∧ (∃ r ∈ s :: ss, r.2.1 = ymin)
        ∧ (∀ r ∈ s :: ss, r.1 + r.2.2.1 ≤ right)
        ∧ (∃ r ∈ s :: ss, r.1 + r.2.2.1 = right)
        ∧ (∀ r ∈ s :: ss, r.2.1 + r.2.2.2 ≤ bottom)
        ∧ (∃ r ∈ s :: ss, r.2.1 + r.2.2.2 = bottom))
    ∧ shrinkWrap [(10, 10, 40, 20), (-5, 30, 20, 20)] = some (50, 60) := by
  constructor
  · intro s ss
    refine ⟨(ss.map (fun r => r.1)).foldl min s.1,
      (ss.map (fun r => r.2.1)).foldl min s.2.1,
      (ss.map (fun r => r.1 + r.2.2.1)).foldl max (s.1 + s.2.2.1),
      (ss.map (fun r => r.2.1 + r.2.2.2)).foldl max (s.2.1 + s.2.2.2),
      rfl, ?_, ?_, ?_, ?_, ?_, ?_, ?_, ?_⟩
    · intro r hr
      rcases List.mem_cons.mp hr with h | h
      · subst h
        exact foldl_min_le_init _ _
      · exact foldl_min_le_mem _ _ (List.mem_map.mpr ⟨r, h, rfl⟩)
    · rcases foldl_min_cases (ss.map (fun r => r.1)) s.1 with h | h
      · exact ⟨s, List.mem_cons_self s ss, h.symm⟩
      · rcases List.mem_map.mp h with ⟨r, hr, hrx⟩
        exact ⟨r, List.mem_cons_of_mem s hr, hrx⟩
    · intro r hr
      rcases List.mem_cons.mp hr with h | h
      · subst h
        exact foldl_min_le_init _ _
      · exact foldl_min_le_mem _ _ (List.mem_map.mpr ⟨r, h, rfl⟩)
    · rcases foldl_min_cases (ss.map (fun r => r.2.1)) s.2.1 with h | h
      · exact ⟨s, List.mem_cons_self s ss, h.symm⟩
      · rcases List.mem_map.mp h with ⟨r, hr, hrx⟩
        exact ⟨r, List.mem_cons_of_mem s hr, hrx⟩
    · intro r hr
      rcases List.mem_cons.mp hr with h | h
      · subst h
        exact foldl_max_init_le _ _
      · exact foldl_max_mem_le _ _ (List.mem_map.mpr ⟨r, h, rfl⟩)
    · rcases foldl_max_cases (ss.map (fun r => r.1 + r.2.2.1)) (s.1 + s.2.2.1) with h | h
      · exact ⟨s, List.mem_cons_self s ss, h.symm⟩
      · rcases List.mem_map.mp h with ⟨r, hr, hrx⟩
        exact ⟨r, List.mem_cons_of_mem s hr, hrx⟩
    · intro r hr
      rcases List.mem_cons.mp hr with h | h
      · subst h
        exact foldl_max_init_le _ _
      · exact foldl_max_mem_le _ _ (List.mem_map.mpr ⟨r, h, rfl⟩)
    · rcases foldl_max_cases (ss.map (fun r => r.2.1 + r.2.2.2)) (s.2.1 + s.2.2.2) with h | h
      · exact ⟨s, List.mem_cons_self s ss, h.symm⟩
      · rcases List.mem_map.mp h with ⟨r, hr, hrx⟩
        exact ⟨r, List.mem_cons_of_mem s hr, hrx⟩
  · simp [shrinkWrap]
    norm_num

/-! Claim C6. -/

/-- C6: `Line.renderMarker` passes the marker the unit vector from the
endpoint toward the connector's other endpoint (`(x0-x1)/d, (y0-y1)/d` with
`d` their distance), and `Marker.render` emits the affine transform
`matrix(nx, ny, -ny, nx, x, y)`.  The normal is a unit vector and points from
`(x1, y1)` toward `(x0, y0)`. -/
theorem C6_marker_transform (x1 y1 x0 y0 d : ℚ) (hd : 0 < d)
    (hdist : d * d = (x0 - x1) * (x0 - x1) + (y0 - y1) * (y0 - y1)) :
    markerRender (markerPoint x1 y1 x0 y0 d) =
      ((x0 - x1) / d, (y0 - y1) / d, -((y0 - y1) / d), (x0 - x1) / d, x1, y1)
    ∧ ((x0 - x1) / d) * ((x0 - x1) / d) + ((y0 - y1) / d) * ((y0 - y1) / d) = 1
    ∧ x0 - x1 = d * ((x0 - x1) / d) ∧ y0 - y1 = d * ((y0 - y1) / d) := by
  have hdne : d ≠ 0 := ne_of_gt hd
  refine ⟨rfl, ?_, ?_, ?_⟩
  · field_simp
    linarith [hdist]
  · field_simp
  · field_simp

/-- Witness for C6: the claim's concrete instance — normal (1, 0) at
(100, 50) (other endpoint (220, 50), distance 120) gives the pure translation
matrix (1, 0, 0, 1, 100, 50). -/
theorem C6_witness :
    (0:ℚ) < 120
    ∧ markerRender (markerPoint 100 50 220 50 120) = (1, 0, 0, 1, 100, 50) := by
  have h := C6_marker_transform 100 50 220 50 120 (by norm_num) (by norm_num)
  refine ⟨by norm_num, ?_⟩
  rw [h.1]
  norm_num

theorem vplace_get_dx (S : ℚ) (f : ℚ → ℚ) (y : ℚ) (l : List Laid) (i : ℕ)
    (e : ℚ × ℚ × Laid) (he : (vplace S f y l).1[i]? = some e) :
    e.1 = f (Laid.width e.2.2) := by
  have hm := congrArg (fun t => t[i]?) (vplace_map S f y l)
  simp only [List.getElem?_map, he, Option.map_some] at hm
  cases hl : l[i]? with
  | none =>
    rw [hl] at hm
    simp at hm
  | some c2 =>
    rw [hl] at hm
    simp only [Option.map_some', Option.some.injEq, Prod.mk.injEq] at hm
    rw [hm.2]
    exact hm.1

theorem hplace_get_dy (S : ℚ) (f : ℚ → ℚ) (x : ℚ) (l : List Laid) (i : ℕ)
    (e : ℚ × ℚ × Laid) (he : (hplace S f x l).1[i]? = some e) :
    e.2.1 = f (Laid.height e.2.2) := by
  have hm := congrArg (fun t => t[i]?) (hplace_map S f x l)
  simp only [List.getElem?_map, he, Option.map_some] at hm
  cases hl : l[i]? with
  | none =>
    rw [hl] at hm
    simp at hm
  | some c2 =>
    rw [hl] at hm
    simp only [Option.map_some', Option.some.injEq, Prod.mk.injEq] at hm
    rw [hm.2]
    exact hm.1

/-! Claim C1 (corrected: the cross-axis conjunct additionally requires that
the cross axis carries no forced size; with a forced cross size the
container's cross extent is the forced value, not max-child-plus-padding). -/

/-- The claim's cross-axis equation fails when the container has a forced
size on the cross axis even though the stacking axis is unforced: a `Vbox`
with `width: 100` and one child of width 10 (no padding) has laid-out width
100, while the claim predicts 10. -/
theorem C1_counterexample :
    ({ width := some 100 } : BoxCfg).height = none
    ∧ (layout (.vbox { width := some 100 } [.text { width := 10, height := 10 }])).width = 100
    ∧ paddingLeft ({ width := some 100 } : BoxCfg).padding
        + ((layoutList [Shape.text { width := 10, height := 10 }]).map Laid.width).foldr max 0
        + paddingRight ({ width := some 100 } : BoxCfg).padding = 10
    ∧ (100 : ℚ) ≠ 10 := by
  refine ⟨rfl, ?_, ?_, by norm_num⟩
  · simp [layout, layoutList, vboxFinish, jsOr, Laid.width]
  · simp [layout, layoutList, Laid.width, paddingLeft, paddingRight]

/-- C1 (amended): for a `Vbox` (resp. `Hbox`) with N children, spacing S and
no forced size on either axis, the laid-out stacking extent is
padding-start + (sum of child stacking extents + (N-1)·S) + padding-end
(no spacing for N = 0, via the truncated `N - 1`), and the cross extent is
the maximum child cross extent (0 if none) plus the two cross paddings. -/
theorem C1_unforced_extents (cfg : BoxCfg) (cs : List Shape)
    (hw : cfg.width = none) (hh : cfg.height = none) :
    ((layout (.vbox cfg cs)).height
        = paddingTop cfg.padding
          + (((layoutList cs).map Laid.height).sum + ((cs.length - 1 : ℕ) : ℚ) * cfg.spacing)
          + paddingBottom cfg.padding
      ∧ (layout (.vbox cfg cs)).width
        = paddingLeft cfg.padding + ((layoutList cs).map Laid.width).foldr max 0
          + paddingRight cfg.padding)
    ∧ ((layout (.hbox cfg cs)).width
        = paddingLeft cfg.padding
          + (((layoutList cs).map Laid.width).sum + ((cs.length - 1 : ℕ) : ℚ) * cfg.spacing)
          + paddingRight cfg.padding
      ∧ (layout (.hbox cfg cs)).height
        = paddingTop cfg.padding + ((layoutList cs).map Laid.height).foldr max 0
          + paddingBottom cfg.padding) := by
  have hlh : ((layoutList cs).map Laid.height).length = cs.length := by
    rw [List.length_map, layoutList_length]
  have hlw : ((layoutList cs).map Laid.width).length = cs.length := by
    rw [List.length_map, layoutList_length]
  refine ⟨⟨?_, ?_⟩, ?_, ?_⟩
  · simp only [layout]
    rw [vboxFinish_height_none cfg _ hh, contentAlong_eq, hlh]
  · simp only [layout]
    rw [vboxFinish_width_none cfg _ hw, maxAccum_eq_foldr]
    ring
  · simp only [layout]
    rw [hboxFinish_width_none cfg _ hw, contentAlong_eq, hlw]
  · simp only [layout]
    rw [hboxFinish_height_none cfg _ hh, maxAccum_eq_foldr]
    ring

/-- Witness for C1 at a concrete tree: a container with spacing 3, vertical
paddings 2 and horizontal paddings 7, children of sizes 10×20 and 5×7. -/
theorem C1_witness :
    ({ spacing := 3, padding := .list2 2 7 } : BoxCfg).width = none
    ∧ ({ spacing := 3, padding := .list2 2 7 } : BoxCfg).height = none
    ∧ (layout (.vbox { spacing := 3, padding := .list2 2 7 }
        [.text { width := 10, height := 20 }, .text { width := 5, height := 7 }])).height = 34
    ∧ (layout (.vbox { spacing := 3, padding := .list2 2 7 }
        [.text { width := 10, height := 20 }, .text { width := 5, height := 7 }])).width = 24 := by
  have h := C1_unforced_extents { spacing := 3, padding := .list2 2 7 }
    [.text { width := 10, height := 20 }, .text { width := 5, height := 7 }] rfl rfl
  refine ⟨rfl, rfl, ?_, ?_⟩
  · rw [h.1.1]
    simp [layoutList, layout, Laid.height, paddingTop, paddingBottom]
    norm_num
  · rw [h.1.2]
    simp [layoutList, layout, Laid.width, paddingLeft, paddingRight]
    norm_num

/-! Claim C2 (corrected: a declared width/height of 0 is *not* preserved —
`this.width = this.width || computed` treats 0 as falsy, so the computed
content size replaces it). -/

/-- A `Vbox` declared with `height: 0` and padding 5 ends `layout()` with
height 5 (the computed padding extent), not the forced 0 the claim promises
for "every numeric forced value, including 0". -/
theorem C2_counterexample :
    ({ height := some 0, padding := .num 5 } : BoxCfg).height = some 0
    ∧ (layout (.vbox { height := some 0, padding := .num 5 } [])).height = 5
    ∧ (5 : ℚ) ≠ 0 := by
  refine ⟨rfl, ?_, by norm_num⟩
  simp [layout, layoutList, vboxFinish, vboxStartY, vboxExtraV, vboxDxOf, vplace,
    contentAlong, maxAccum, jsOr, topSpaceOf, paddingTop, paddingBottom, paddingLeft,
    paddingRight, Laid.height]
  norm_num

/-- C2 (amended): for every *nonzero* declared width `w` (resp. height `h`),
`layout()` leaves the container's width equal to `w` (resp. height equal to
`h`) regardless of content, for both `Vbox` and `Hbox`; a declared 0 falls
back to the computed content size. -/
theorem C2_forced_size (cfg : BoxCfg) (cs : List Shape) (w h : ℚ)
    (hw : w ≠ 0) (hh : h ≠ 0) :
    (cfg.width = some w →
      (layout (.vbox cfg cs)).width = w ∧ (layout (.hbox cfg cs)).width = w)
    ∧ (cfg.height = some h →
      (layout (.vbox cfg cs)).height = h ∧ (layout (.hbox cfg cs)).height = h) := by
  constructor
  · intro hcw
    constructor
    · simp [layout, vboxFinish, Laid.width, hcw, jsOr, hw]
    · simp [layout, hboxFinish, Laid.width, hcw, jsOr, hw]
  · intro hch
    constructor
    · simp [layout, vboxFinish, Laid.height, hch, jsOr, hh]
    · simp [layout, hboxFinish, Laid.height, hch, jsOr, hh]

/-- Witness for C2: a concrete box with forced width 30 and height 40 keeps
both, for `Vbox` and `Hbox` alike, whatever its (empty) content computes. -/
theorem C2_witness :
    (30 : ℚ) ≠ 0 ∧ (40 : ℚ) ≠ 0
    ∧ (layout (.vbox { width := some 30, height := some 40 } [])).width = 30
    ∧ (layout (.hbox { width := some 30, height := some 40 } [])).width = 30
    ∧ (layout (.vbox { width := some 30, height := some 40 } [])).height = 40
    ∧ (layout (.hbox { width := some 30, height := some 40 } [])).height = 40 := by
  have h := C2_forced_size { width := some 30, height := some 40 } [] 30 40
    (by norm_num) (by norm_num)
  exact ⟨by norm_num, by norm_num, (h.1 rfl).1, (h.1 rfl).2, (h.2 rfl).1, (h.2 rfl).2⟩

/-! Claim C3. -/

/-- C3: with a forced size on the stacking axis, the first child sits after a
leading offset of 0 / whole slack / half slack of
`slack = forced − padding-start − padding-end − content extent`, keyed by
'top'/'bottom' (`Vbox`) resp. 'left'/'right' (`Hbox`), any other key giving
half; and every child's cross-axis offset applies the same three-way policy
to its own cross slack (forced-cross-size − paddings − child extent when the
cross axis is forced, max child extent − child extent otherwise). -/
theorem C3_slack_alignment (cfg : BoxCfg) (c : Shape) (cs : List Shape) :
    (∀ hv, cfg.height = some hv →
      childDy (layout (.vbox cfg (c :: cs))) 0
          = some (paddingTop cfg.padding
            + (if cfg.valign = some "top" then 0
               else if cfg.valign = some "bottom" then
                 hv - paddingTop cfg.padding - paddingBottom cfg.padding
                   - (((layoutList (c :: cs)).map Laid.height).sum
                      + (((c :: cs).length - 1 : ℕ) : ℚ) * cfg.spacing)
               else (hv - paddingTop cfg.padding - paddingBottom cfg.padding
                   - (((layoutList (c :: cs)).map Laid.height).sum
                      + (((c :: cs).length - 1 : ℕ) : ℚ) * cfg.spacing)) / 2))
        ∧ (∀ (i : ℕ) (e : ℚ × ℚ × Laid),
            (layout (.vbox cfg (c :: cs))).children[i]? = some e →
            e.1 = paddingLeft cfg.padding
              + (if cfg.align = some "left" then 0
                 else if cfg.align = some "right" then
                   (match cfg.width with
                    | some w => w - paddingLeft cfg.padding - paddingRight cfg.padding
                        - (e.2.2).width
                    | none => ((layoutList (c :: cs)).map Laid.width).foldr max 0
                        - (e.2.2).width)
                 else
                   (match cfg.width with
                    | some w => w - paddingLeft cfg.padding - paddingRight cfg.padding
                        - (e.2.2).width
                    | none => ((layoutList (c :: cs)).map Laid.width).foldr max 0
                        - (e.2.2).width) / 2)))
    ∧ (∀ hb, cfg.width = some hb →
      childDx (layout (.hbox cfg (c :: cs))) 0
          = some (paddingLeft cfg.padding
            + (if cfg.align = some "left" then 0
               else if cfg.align = some "right" then
                 hb - paddingLeft cfg.padding - paddingRight cfg.padding
                   - (((layoutList (c :: cs)).map Laid.width).sum
                      + (((c :: cs).length - 1 : ℕ) : ℚ) * cfg.spacing)
               else (hb - paddingLeft cfg.padding - paddingRight cfg.padding
                   - (((layoutList (c :: cs)).map Laid.width).sum
                      + (((c :: cs).length - 1 : ℕ) : ℚ) * cfg.spacing)) / 2))
        ∧ (∀ (i : ℕ) (e : ℚ × ℚ × Laid),
            (layout (.hbox cfg (c :: cs))).children[i]? = some e →
            e.2.1 = paddingTop cfg.padding
              + (if cfg.valign = some "top" then 0
                 else if cfg.valign = some "bottom" then
                   (match cfg.height with
                    | some h => h - paddingTop cfg.padding - paddingBottom cfg.padding
                        - (e.2.2).height
                    | none => ((layoutList (c :: cs)).map Laid.height).foldr max 0
                        - (e.2.2).height)
                 else
                   (match cfg.height with
                    | some h => h - paddingTop cfg.padding - paddingBottom cfg.padding
                        - (e.2.2).height
                    | none => ((layoutList (c :: cs)).map Laid.height).foldr max 0
                        - (e.2.2).height) / 2))) := by
  have hlv : layout (.vbox cfg (c :: cs)) = vboxFinish cfg (layoutList (c :: cs)) := by
    simp [layout]
  have hlb : layout (.hbox cfg (c :: cs)) = hboxFinish cfg (layoutList (c :: cs)) := by
    simp [layout]
  have hch : contentAlong cfg.spacing ((layoutList (c :: cs)).map Laid.height)
      = ((layoutList (c :: cs)).map Laid.height).sum
        + (((c :: cs).length - 1 : ℕ) : ℚ) * cfg.spacing := by
    rw [contentAlong_eq, List.length_map, layoutList_length]
  have hcw : contentAlong cfg.spacing ((layoutList (c :: cs)).map Laid.width)
      = ((layoutList (c :: cs)).map Laid.width).sum
        + (((c :: cs).length - 1 : ℕ) : ℚ) * cfg.spacing := by
    rw [contentAlong_eq, List.length_map, layoutList_length]
  constructor
  · intro hv hhv
    constructor
    · rw [hlv]
      unfold childDy
      simp only [vboxFinish, vboxStartY, vboxExtraV, Laid.children, hhv]
      rw [show layoutList (c :: cs) = layout c :: layoutList cs from by rw [layoutList]]
      rw [vplace_head]
      rw [show layout c :: layoutList cs = layoutList (c :: cs) from by rw [layoutList]]
      rw [hch, topSpaceOf]
      simp
    · intro i e he
      rw [hlv] at he
      simp only [vboxFinish, Laid.children] at he
      have hdx := vplace_get_dx _ _ _ _ _ _ he
      rw [hdx]
      cases hw2 : cfg.width with
      | none => simp only [vboxDxOf, leftSpaceOf, vboxChildExtraH, hw2, maxAccum_eq_foldr]
      | some w => simp only [vboxDxOf, leftSpaceOf, vboxChildExtraH, hw2, maxAccum_eq_foldr]
  · intro hb hhb
    constructor
    · rw [hlb]
      unfold childDx
      simp only [hboxFinish, hboxStartX, hboxExtraH, Laid.children, hhb]
      rw [show layoutList (c :: cs) = layout c :: layoutList cs from by rw [layoutList]]
      rw [hplace_head]
      rw [show layout c :: layoutList cs = layoutList (c :: cs) from by rw [layoutList]]
      rw [hcw, leftSpaceOf]
      simp
    · intro i e he
      rw [hlb] at he
      simp only [hboxFinish, Laid.children] at he
      have hdy := hplace_get_dy _ _ _ _ _ _ he
      rw [hdy]
      cases hh2 : cfg.height with
      | none => simp only [hboxDyOf, topSpaceOf, hboxChildExtraV, hh2, maxAccum_eq_foldr]
      | some hgt => simp only [hboxDyOf, topSpaceOf, hboxChildExtraV, hh2, maxAccum_eq_foldr]

/-- Witness for C3: a box forced to 60×100 with padding 5, spacing 2,
`align: right`, `valign: bottom` and children 10×20 and 30×40 places the
first child at dy = 5 + 28 = 33 in a `Vbox` and at dx = 5 + 8 = 13 in an
`Hbox`. -/
theorem C3_witness :
    ({ width := some 60, height := some 100, padding := .num 5, spacing := 2,
        align := some "right", valign := some "bottom" } : BoxCfg).height = some 100
    ∧ ({ width := some 60, height := some 100, padding := .num 5, spacing := 2,
          align := some "right", valign := some "bottom" } : BoxCfg).width = some 60
    ∧ childDy (layout (.vbox { width := some 60, height := some 100, padding := .num 5, spacing := 2, align := some "right", valign := some "bottom" } [.text { width := 10, height := 20 }, .text { width := 30, height := 40 }])) 0
      = some 33
    ∧ childDx (layout (.hbox { width := some 60, height := some 100, padding := .num 5, spacing := 2, align := some "right", valign := some "bottom" } [.text { width := 10, height := 20 }, .text { width := 30, height := 40 }])) 0
      = some 13 := by
  have h := C3_slack_alignment
    { width := some 60, height := some 100, padding := .num 5, spacing := 2,
      align := some "right", valign := some "bottom" }
    (.text { width := 10, height := 20 }) [.text { width := 30, height := 40 }]
  refine ⟨rfl, rfl, ?_, ?_⟩
  · rw [(h.1 100 rfl).1]
    simp [layoutList, layout, Laid.height, paddingTop, paddingBottom]
    norm_num
  · rw [(h.2 60 rfl).1]
    simp [layoutList, layout, Laid.width, paddingLeft, paddingRight]
    norm_num

/-! Claim C5 (corrected: the selection loop starts from the sentinel distance
1000000, so when every candidate pair is at least that far apart both
returned points remain `undefined` instead of the minimal pair). -/

theorem foldl_selStep_eq (l : List (CPoint × CPoint)) (f0 t0 : Option CPoint) (d0 : ℚ) :
    l.foldl selStep (f0, t0, d0)
      = match selSpec d0 l with
        | none => (f0, t0, d0)
        | some p => (some p.1, some p.2, distanceSq p.1 p.2) := by
  induction l generalizing f0 t0 d0 with
  | nil => simp [selSpec]
  | cons p ps ih =>
    simp only [List.foldl_cons, selStep, selSpec]
    by_cases h : distanceSq p.1 p.2 < d0
    · simp only [if_pos h]
      rw [ih]
      cases selSpec (distanceSq p.1 p.2) ps <;> simp
    · simp only [if_neg h]
      rw [ih]

theorem selSpec_none (d0 : ℚ) (l : List (CPoint × CPoint)) (h : selSpec d0 l = none) :
    ∀ p ∈ l, d0 ≤ distanceSq p.1 p.2 := by
  induction l generalizing d0 with
  | nil =>
    intro p hp
    cases hp
  | cons q qs ih =>
    intro p hp
    by_cases hq : distanceSq q.1 q.2 < d0
    · exfalso
      simp only [selSpec, if_pos hq] at h
      cases hsel : selSpec (distanceSq q.1 q.2) qs <;> rw [hsel] at h <;> simp at h
    · simp only [selSpec, if_neg hq] at h
      rcases List.mem_cons.mp hp with hp1 | hp2
      · rw [hp1]
        exact le_of_not_lt hq
      · exact ih d0 h p hp2

theorem selSpec_some (d0 : ℚ) (l : List (CPoint × CPoint)) (p : CPoint × CPoint)
    (h : selSpec d0 l = some p) :
    ∃ i, l[i]? = some p ∧ distanceSq p.1 p.2 < d0
      ∧ (∀ (j : ℕ) (q : CPoint × CPoint), l[j]? = some q →
          distanceSq p.1 p.2 ≤ distanceSq q.1 q.2)
      ∧ (∀ (j : ℕ) (q : CPoint × CPoint), j < i → l[j]? = some q →
          distanceSq p.1 p.2 < distanceSq q.1 q.2) := by
  induction l generalizing d0 with
  | nil => simp [selSpec] at h
  | cons q0 qs ih =>
    by_cases hq : distanceSq q0.1 q0.2 < d0
    · simp only [selSpec, if_pos hq] at h
      cases hsel : selSpec (distanceSq q0.1 q0.2) qs with
      | none =>
        rw [hsel] at h
        simp only [Option.some.injEq] at h
        subst h
        refine ⟨0, by simp, hq, ?_, ?_⟩
        · intro j q hj
          cases j with
          | zero =>
            simp only [List.getElem?_cons_zero, Option.some.injEq] at hj
            subst hj
            exact le_refl _
          | succ j2 =>
            simp only [List.getElem?_cons_succ] at hj
            have hmem : q ∈ qs := List.getElem?_mem hj
            exact selSpec_none _ _ hsel q hmem
        · intro j q hj0 hj
          cases hj0
      | some r =>
        rw [hsel] at h
        simp only [Option.some.injEq] at h
        subst h
        obtain ⟨i, hi, hlt, hall, hbefore⟩ := ih (distanceSq q0.1 q0.2) hsel
        refine ⟨i + 1, by simpa using hi, lt_trans hlt hq, ?_, ?_⟩
        · intro j q hj
          cases j with
          | zero =>
            simp only [List.getElem?_cons_zero, Option.some.injEq] at hj
            subst hj
            exact le_of_lt hlt
          | succ j2 =>
            simp only [List.getElem?_cons_succ] at hj
            exact hall j2 q hj
        · intro j q hji hj
          cases j with
          | zero =>
            simp only [List.getElem?_cons_zero, Option.some.injEq] at hj
            subst hj
            exact hlt
          | succ j2 =>
            simp only [List.getElem?_cons_succ] at hj
            exact hbefore j2 q (by omega) hj
    · simp only [selSpec, if_neg hq] at h
      obtain ⟨i, hi, hlt, hall, hbefore⟩ := ih d0 h
      refine ⟨i + 1, by simpa using hi, hlt, ?_, ?_⟩
      · intro j q hj
        cases j with
        | zero =>
          simp only [List.getElem?_cons_zero, Option.some.injEq] at hj
          subst hj
          exact le_of_lt (lt_of_lt_of_le hlt (le_of_not_lt hq))
        | succ j2 =>
          simp only [List.getElem?_cons_succ] at hj
          exact hall j2 q hj
      · intro j q hji hj
        cases j with
        | zero =>
          simp only [List.getElem?_cons_zero, Option.some.injEq] at hj
          subst hj
          exact lt_of_lt_of_le hlt (le_of_not_lt hq)
        | succ j2 =>
          simp only [List.getElem?_cons_succ] at hj
          exact hbefore j2 q (by omega) hj

/-- The claim quantifies over *every* pair of shapes with defined geometry,
but for two 10×10 squares 3000000 apart every candidate pair is further than
the loop's initial sentinel 1000000, so `findConnectionPoints` returns no
points at all — not the minimal-distance pair the claim promises. -/
theorem C5_counterexample :
    findConnectionPoints (.leafP none 0 0 10 10 "") (.leafP none 3000000 0 10 10 "")
      = (none, none) := by
  norm_num [findConnectionPoints, pairsOf, connectionPoints, selStep, distanceSq,
    Placed.x, Placed.y, Placed.width, Placed.height, List.flatMap]

/-- C5 (amended): whenever some candidate pair is strictly closer than the
sentinel 1000000 (squared distances are compared throughout; `Math.sqrt` is
strictly monotone), `findConnectionPoints` returns the candidate pair (one
point from each shape's `connectionPoints()`) of minimal Euclidean distance,
ties resolved to the pair encountered first in the fixed fromPoint-major
enumeration order. -/
theorem C5_closest_pair (fromShape toShape : Placed)
    (hmin : ∃ p ∈ pairsOf fromShape toShape,
      distanceSq p.1 p.2 < 1000000 * 1000000) :
    ∃ (i : ℕ) (fp tp : CPoint),
      (pairsOf fromShape toShape)[i]? = some (fp, tp)
      ∧ findConnectionPoints fromShape toShape = (some fp, some tp)
      ∧ (∀ (j : ℕ) (q : CPoint × CPoint), (pairsOf fromShape toShape)[j]? = some q →
          distanceSq fp tp ≤ distanceSq q.1 q.2)
      ∧ (∀ (j : ℕ) (q : CPoint × CPoint), j < i → (pairsOf fromShape toShape)[j]? = some q →
          distanceSq fp tp < distanceSq q.1 q.2) := by
  cases hsel : selSpec (1000000 * 1000000) (pairsOf fromShape toShape) with
  | none =>
    exfalso
    obtain ⟨p, hp, hplt⟩ := hmin
    exact absurd (selSpec_none _ _ hsel p hp) (not_le.mpr hplt)
  | some p =>
    obtain ⟨i, hi, hlt, hall, hbefore⟩ := selSpec_some _ _ _ hsel
    refine ⟨i, p.1, p.2, by simpa using hi, ?_, hall, hbefore⟩
    unfold findConnectionPoints
    rw [foldl_selStep_eq, hsel]

/-- Witness for C5: the claim's example — shapes at (0,0,80,60) and
(200,0,80,60) — satisfies the sentinel hypothesis, the theorem applies, and
the selected pair is A's right midpoint (80,30) and B's left midpoint
(200,30). -/
theorem C5_witness :
    (∃ p ∈ pairsOf (.leafP none 0 0 80 60 "") (.leafP none 200 0 80 60 ""),
      distanceSq p.1 p.2 < 1000000 * 1000000)
    ∧ (∃ (i : ℕ) (fp tp : CPoint),
        (pairsOf (.leafP none 0 0 80 60 "") (.leafP none 200 0 80 60 ""))[i]? = some (fp, tp)
        ∧ findConnectionPoints (.leafP none 0 0 80 60 "") (.leafP none 200 0 80 60 "")
          = (some fp, some tp)
        ∧ (∀ (j : ℕ) (q : CPoint × CPoint),
            (pairsOf (.leafP none 0 0 80 60 "") (.leafP none 200 0 80 60 ""))[j]? = some q →
            distanceSq fp tp ≤ distanceSq q.1 q.2)
        ∧ (∀ (j : ℕ) (q : CPoint × CPoint), j < i →
            (pairsOf (.leafP none 0 0 80 60 "") (.leafP none 200 0 80 60 ""))[j]? = some q →
            distanceSq fp tp < distanceSq q.1 q.2))
    ∧ findConnectionPoints (.leafP none 0 0 80 60 "") (.leafP none 200 0 80 60 "")
      = (some (80, 30, 1, 0), some (200, 30, -1, 0)) :=
  ⟨by
    refine ⟨((80, 30, 1, 0), (200, 30, -1, 0)), ?_, by norm_num [distanceSq]⟩
    norm_num [pairsOf, connectionPoints, Placed.x, Placed.y, Placed.width,
      Placed.height, List.flatMap],
  C5_closest_pair _ _
    (by
      refine ⟨((80, 30, 1, 0), (200, 30, -1, 0)), ?_, by norm_num [distanceSq]⟩
      norm_num [pairsOf, connectionPoints, Placed.x, Placed.y, Placed.width,
        Placed.height, List.flatMap]),
  by
    norm_num [findConnectionPoints, pairsOf, connectionPoints, selStep, distanceSq,
      Placed.x, Placed.y, Placed.width, Placed.height, List.flatMap]⟩

/-! Claim C8. -/

theorem lines_fold_skip (placed : List Placed) (l : LineCfg) (lines1 lines2 : List LineCfg)
    (h : lineRender placed l = none) (acc : List Prim) :
    (lines1 ++ l :: lines2).foldl (fun acc2 l2 => acc2 ++ (lineRender placed l2).getD []) acc
      = (lines1 ++ lines2).foldl
          (fun acc2 l2 => acc2 ++ (lineRender placed l2).getD []) acc := by
  induction lines1 generalizing acc with
  | nil => simp [h]
  | cons a as ih =>
    simp only [List.cons_append, List.foldl_cons]
    exact ih _

/-- C8: a `Line` whose `from` or `to` is missing, or references an id that
resolves to no shape in the rendered forest, produces no drawing primitives
(`render` returns `undefined` with a warning), and the diagram renders
exactly as if the line were absent — all other shapes and lines unaffected.
(The placement hypothesis makes the model's id search over the rendered
forest agree with the JS search over the mutated shape objects.) -/
theorem C8_missing_reference (shapes : List Shape) (l : LineCfg)
    (lines1 lines2 : List LineCfg)
    (hplaced : ∀ s ∈ shapes, (placeShape s).isSome = true)
    (hbad : l.fromId = none ∨ l.toId = none
      ∨ (∃ f, l.fromId = some f ∧ shapeByIdList (shapes.filterMap placeShape) f = none)
      ∨ (∃ t, l.toId = some t ∧ shapeByIdList (shapes.filterMap placeShape) t = none)) :
    lineRender (shapes.filterMap placeShape) l = none
    ∧ diagramRender shapes (lines1 ++ l :: lines2)
      = diagramRender shapes (lines1 ++ lines2) := by
  have h1 : lineRender (shapes.filterMap placeShape) l = none := by
    rcases hbad with h | h | ⟨f, hf, hs⟩ | ⟨t, ht, hs⟩
    · simp [lineRender, h]
    · cases hf : l.fromId <;> simp [lineRender, h, hf]
    · cases ht2 : l.toId <;> simp [lineRender, hf, ht2, hs]
    · cases hf2 : l.fromId with
      | none => simp [lineRender, hf2]
      | some f =>
        cases hlf : shapeByIdList (shapes.filterMap placeShape) f <;>
          simp [lineRender, hf2, ht, hlf, hs]
  refine ⟨h1, ?_⟩
  simp only [diagramRender]
  rw [lines_fold_skip _ _ _ _ h1]

/-- Witness for C8: a diagram with one placed shape with id `a` and a line
from `a` to the nonexistent id `zz` renders the same primitives as the
diagram without that line, the line itself contributing nothing. -/
theorem C8_witness :
    (∀ s ∈ [Shape.text { id := some "a", x := some 0, y := some 0, width := 10, height := 10 }], (placeShape s).isSome = true)
    ∧ lineRender ([Shape.text { id := some "a", x := some 0, y := some 0, width := 10, height := 10 }].filterMap placeShape) { fromId := some "a", toId := some "zz" } = none
    ∧ diagramRender [Shape.text { id := some "a", x := some 0, y := some 0, width := 10, height := 10 }] [{ fromId := some "a", toId := some "zz" }]
      = diagramRender [Shape.text { id := some "a", x := some 0, y := some 0, width := 10, height := 10 }] [] := by
  have hp : ∀ s ∈ [Shape.text { id := some "a", x := some 0, y := some 0, width := 10, height := 10 }], (placeShape s).isSome = true := by
    intro s hs
    simp only [List.mem_singleton] at hs
    subst hs
    simp [placeShape, shapeX, shapeY]
  have hb : ({ fromId := some "a", toId := some "zz" } : LineCfg).fromId = none
      ∨ ({ fromId := some "a", toId := some "zz" } : LineCfg).toId = none
      ∨ (∃ f, ({ fromId := some "a", toId := some "zz" } : LineCfg).fromId = some f
          ∧ shapeByIdList ([Shape.text { id := some "a", x := some 0, y := some 0, width := 10, height := 10 }].filterMap placeShape) f = none)
      ∨ (∃ t, ({ fromId := some "a", toId := some "zz" } : LineCfg).toId = some t
          ∧ shapeByIdList ([Shape.text { id := some "a", x := some 0, y := some 0, width := 10, height := 10 }].filterMap placeShape) t = none) := by
    refine Or.inr (Or.inr (Or.inr ⟨"zz", rfl, ?_⟩))
    simp [placeShape, shapeX, shapeY, layout, place, shapeByIdList, shapeById]
  have h := C8_missing_reference
    [Shape.text { id := some "a", x := some 0, y := some 0, width := 10, height := 10 }]
    { fromId := some "a", toId := some "zz" } [] [] hp hb
  exact ⟨hp, h.1, h.2⟩

/-! Claim C9 (corrected: `layout()` stores its computed sizes in the declared
`width`/`height` slots, so it is idempotent only when no box declares a size
of exactly 0 — a declared 0 is falsy, gets replaced by the computed size on
the first run, and the second run then distributes different slack). -/

theorem jsOr_some_self (x : ℚ) : jsOr (some x) x = x := by
  simp only [jsOr]
  split_ifs <;> rfl

theorem noZeroSizeList_mem (cs : List Shape) (h : noZeroSizeList cs = true) :
    ∀ c ∈ cs, noZeroSize c = true := by
  induction cs with
  | nil =>
    intro c hc
    cases hc
  | cons c2 cs2 ih =>
    intro c hc
    rw [noZeroSizeList, Bool.and_eq_true] at h
    rcases List.mem_cons.mp hc with h1 | h2
    · rw [h1]
      exact h.1
    · exact ih h.2 c h2

theorem commitList_layout (cs : List Shape) (ps : List (ℚ × ℚ × Laid))
    (hthirds : ps.map (fun e => e.2.2) = layoutList cs)
    (hIH : ∀ c ∈ cs, layout (commit c (layout c)) = layout c) :
    layoutList (commitList cs ps) = layoutList cs := by
  induction cs generalizing ps with
  | nil =>
    cases ps <;> simp [commitList]
  | cons c cs2 ih =>
    cases ps with
    | nil =>
      rw [layoutList] at hthirds
      simp at hthirds
    | cons p ps2 =>
      obtain ⟨pdx, pdy, pl⟩ := p
      rw [layoutList] at hthirds
      simp only [List.map_cons, List.cons.injEq] at hthirds
      obtain ⟨hp, hps⟩ := hthirds
      rw [commitList, layoutList, layoutList]
      have hpl : pl = layout c := hp
      rw [hpl, hIH c (List.mem_cons_self c cs2),
        ih ps2 hps (fun c2 hc2 => hIH c2 (List.mem_cons_of_mem c hc2))]

theorem vboxFinish_stable (cfg cfg2 : BoxCfg) (L : List Laid)
    (hpad : cfg2.padding = cfg.padding) (hsp : cfg2.spacing = cfg.spacing)
    (hal : cfg2.align = cfg.align) (hval : cfg2.valign = cfg.valign)
    (h2w : cfg2.width = some (vboxFinish cfg L).width)
    (h2h : cfg2.height = some (vboxFinish cfg L).height)
    (hw0 : cfg.width ≠ some 0) (hh0 : cfg.height ≠ some 0) :
    vboxFinish cfg2 L = vboxFinish cfg L := by
  have hW : (vboxFinish cfg L).width
      = jsOr cfg.width (maxAccum (L.map Laid.width) + paddingLeft cfg.padding
          + paddingRight cfg.padding) := by
    simp only [vboxFinish, Laid.width]
  have hyF : (vplace cfg.spacing (vboxDxOf cfg (maxAccum (L.map Laid.width)))
        (vboxStartY cfg (contentAlong cfg.spacing (L.map Laid.height))) L).2
      = vboxStartY cfg (contentAlong cfg.spacing (L.map Laid.height))
        + contentAlong cfg.spacing (L.map Laid.height) := vplace_snd _ _ _ _
  have hH : (vboxFinish cfg L).height
      = jsOr cfg.height
          (vboxStartY cfg (contentAlong cfg.spacing (L.map Laid.height))
            + contentAlong cfg.spacing (L.map Laid.height) + paddingBottom cfg.padding) := by
    simp only [vboxFinish, Laid.height, hyF]
  have hexV : vboxExtraV cfg2 (contentAlong cfg.spacing (L.map Laid.height))
      = vboxExtraV cfg (contentAlong cfg.spacing (L.map Laid.height)) := by
    cases hch : cfg.height with
    | none =>
      have hH2 : (vboxFinish cfg L).height
          = paddingTop cfg.padding + contentAlong cfg.spacing (L.map Laid.height)
            + paddingBottom cfg.padding := by
        rw [hH, hch]
        simp only [jsOr]
        rw [vboxStartY, vboxExtraV, hch, topSpaceOf_zero]
        ring
      simp only [vboxExtraV, h2h, hH2, hpad, hch]
      ring
    | some hv =>
      have hvne : hv ≠ 0 := by
        intro h0
        rw [h0] at hch
        exact hh0 hch
      have hH2 : (vboxFinish cfg L).height = hv := by
        rw [hH, hch]
        simp only [jsOr, if_neg hvne]
      simp only [vboxExtraV, h2h, hH2, hpad, hch]
  have hstart : vboxStartY cfg2 (contentAlong cfg.spacing (L.map Laid.height))
      = vboxStartY cfg (contentAlong cfg.spacing (L.map Laid.height)) := by
    rw [vboxStartY, vboxStartY, hexV, hpad, hval]
  have hdxf : vboxDxOf cfg2 (maxAccum (L.map Laid.width))
      = vboxDxOf cfg (maxAccum (L.map Laid.width)) := by
    funext cw
    rw [vboxDxOf, vboxDxOf, hpad, hal]
    congr 1
    cases hcw : cfg.width with
    | none =>
      have hW2 : (vboxFinish cfg L).width
          = maxAccum (L.map Laid.width) + paddingLeft cfg.padding
            + paddingRight cfg.padding := by
        rw [hW, hcw]
        simp only [jsOr]
      simp only [vboxChildExtraH, h2w, hW2, hpad, hcw]
      ring
    | some w =>
      have hwne : w ≠ 0 := by
        intro h0
        rw [h0] at hcw
        exact hw0 hcw
      have hW2 : (vboxFinish cfg L).width = w := by
        rw [hW, hcw]
        simp only [jsOr, if_neg hwne]
      simp only [vboxChildExtraH, h2w, hW2, hpad, hcw]
  have hWeq : jsOr cfg2.width (maxAccum (L.map Laid.width) + paddingLeft cfg.padding
        + paddingRight cfg.padding)
      = jsOr cfg.width (maxAccum (L.map Laid.width) + paddingLeft cfg.padding
        + paddingRight cfg.padding) := by
    cases hcw : cfg.width with
    | none =>
      rw [h2w, hW, hcw]
      simp only [jsOr]
      exact jsOr_some_self _
    | some w =>
      have hwne : w ≠ 0 := by
        intro h0
        rw [h0] at hcw
        exact hw0 hcw
      rw [h2w, hW, hcw]
      simp only [jsOr, if_neg hwne]
  have hHeq : jsOr cfg2.height
        (vboxStartY cfg (contentAlong cfg.spacing (L.map Laid.height))
          + contentAlong cfg.spacing (L.map Laid.height) + paddingBottom cfg.padding)
      = jsOr cfg.height
        (vboxStartY cfg (contentAlong cfg.spacing (L.map Laid.height))
          + contentAlong cfg.spacing (L.map Laid.height) + paddingBottom cfg.padding) := by
    cases hch : cfg.height with
    | none =>
      rw [h2h, hH, hch]
      simp only [jsOr]
      exact jsOr_some_self _
    | some hv =>
      have hvne : hv ≠ 0 := by
        intro h0
        rw [h0] at hch
        exact hh0 hch
      rw [h2h, hH, hch]
      simp only [jsOr, if_neg hvne]
  simp only [vboxFinish]
  rw [hsp, hpad, hdxf, hstart, hyF]
  rw [hWeq, hHeq]

theorem hboxFinish_stable (cfg cfg2 : BoxCfg) (L : List Laid)
    (hpad : cfg2.padding = cfg.padding) (hsp : cfg2.spacing = cfg.spacing)
    (hal : cfg2.align = cfg.align) (hval : cfg2.valign = cfg.valign)
    (h2w : cfg2.width = some (hboxFinish cfg L).width)
    (h2h : cfg2.height = some (hboxFinish cfg L).height)
    (hw0 : cfg.width ≠ some 0) (hh0 : cfg.height ≠ some 0) :
    hboxFinish cfg2 L = hboxFinish cfg L := by
  have hH : (hboxFinish cfg L).height
      = jsOr cfg.height (maxAccum (L.map Laid.height) + paddingTop cfg.padding
          + paddingBottom cfg.padding) := by
    simp only [hboxFinish, Laid.height]
  have hxF : (hplace cfg.spacing (hboxDyOf cfg (maxAccum (L.map Laid.height)))
        (hboxStartX cfg (contentAlong cfg.spacing (L.map Laid.width))) L).2
      = hboxStartX cfg (contentAlong cfg.spacing (L.map Laid.width))
        + contentAlong cfg.spacing (L.map Laid.width) := hplace_snd _ _ _ _
  have hW : (hboxFinish cfg L).width
      = jsOr cfg.width
          (hboxStartX cfg (contentAlong cfg.spacing (L.map Laid.width))
            + contentAlong cfg.spacing (L.map Laid.width) + paddingRight cfg.padding) := by
    simp only [hboxFinish, Laid.width, hxF]
  have hexH : hboxExtraH cfg2 (contentAlong cfg.spacing (L.map Laid.width))
      = hboxExtraH cfg (contentAlong cfg.spacing (L.map Laid.width)) := by
    cases hcw : cfg.width with
    | none =>
      have hW2 : (hboxFinish cfg L).width
          = paddingLeft cfg.padding + contentAlong cfg.spacing (L.map Laid.width)
            + paddingRight cfg.padding := by
        rw [hW, hcw]
        simp only [jsOr]
        rw [hboxStartX, hboxExtraH, hcw, leftSpaceOf_zero]
        ring
      simp only [hboxExtraH, h2w, hW2, hpad, hcw]
      ring
    | some w =>
      have hwne : w ≠ 0 := by
        intro h0
        rw [h0] at hcw
        exact hw0 hcw
      have hW2 : (hboxFinish cfg L).width = w := by
        rw [hW, hcw]
        simp only [jsOr, if_neg hwne]
      simp only [hboxExtraH, h2w, hW2, hpad, hcw]
  have hstart : hboxStartX cfg2 (contentAlong cfg.spacing (L.map Laid.width))
      = hboxStartX cfg (contentAlong cfg.spacing (L.map Laid.width)) := by
    rw [hboxStartX, hboxStartX, hexH, hpad, hal]
  have hdyf : hboxDyOf cfg2 (maxAccum (L.map Laid.height))
      = hboxDyOf cfg (maxAccum (L.map Laid.height)) := by
    funext ch
    rw [hboxDyOf, hboxDyOf, hpad, hval]
    congr 1
    cases hch : cfg.height with
    | none =>
      have hH2 : (hboxFinish cfg L).height
          = maxAccum (L.map Laid.height) + paddingTop cfg.padding
            + paddingBottom cfg.padding := by
        rw [hH, hch]
        simp only [jsOr]
      simp only [hboxChildExtraV, h2h, hH2, hpad, hch]
      ring
    | some hv =>
      have hvne : hv ≠ 0 := by
        intro h0
        rw [h0] at hch
        exact hh0 hch
      have hH2 : (hboxFinish cfg L).height = hv := by
        rw [hH, hch]
        simp only [jsOr, if_neg hvne]
      simp only [hboxChildExtraV, h2h, hH2, hpad, hch]
  have hHeq : jsOr cfg2.height (maxAccum (L.map Laid.height) + paddingTop cfg.padding
        + paddingBottom cfg.padding)
      = jsOr cfg.height (maxAccum (L.map Laid.height) + paddingTop cfg.padding
        + paddingBottom cfg.padding) := by
    cases hch : cfg.height with
    | none =>
      rw [h2h, hH, hch]
      simp only [jsOr]
      exact jsOr_some_self _
    | some hv =>
      have hvne : hv ≠ 0 := by
        intro h0
        rw [h0] at hch
        exact hh0 hch
      rw [h2h, hH, hch]
      simp only [jsOr, if_neg hvne]
  have hWeq : jsOr cfg2.width
        (hboxStartX cfg (contentAlong cfg.spacing (L.map Laid.width))
          + contentAlong cfg.spacing (L.map Laid.width) + paddingRight cfg.padding)
      = jsOr cfg.width
        (hboxStartX cfg (contentAlong cfg.spacing (L.map Laid.width))
          + contentAlong cfg.spacing (L.map Laid.width) + paddingRight cfg.padding) := by
    cases hcw : cfg.width with
    | none =>
      rw [h2w, hW, hcw]
      simp only [jsOr]
      exact jsOr_some_self _
    | some w =>
      have hwne : w ≠ 0 := by
        intro h0
        rw [h0] at hcw
        exact hw0 hcw
      rw [h2w, hW, hcw]
      simp only [jsOr, if_neg hwne]
  simp only [hboxFinish]
  rw [hsp, hpad, hdyf, hstart, hxF]
  rw [hWeq, hHeq]

/-- A `Vbox` with a declared height of 0 and a 10×10 child: the first run
puts the child at dy = −5 (half the negative slack) and overwrites the
declared 0 with the computed height 5; the second run, seeing height 5,
puts the child at dy = −5/2.  `layout()` is therefore not idempotent as the
claim states it. -/
theorem C9_counterexample :
    childDy (layout (.vbox { height := some 0 } [.text { width := 10, height := 10 }])) 0
      = some (-5)
    ∧ childDy (layout (commit (.vbox { height := some 0 } [.text { width := 10, height := 10 }])
        (layout (.vbox { height := some 0 } [.text { width := 10, height := 10 }])))) 0
      = some (-5/2)
    ∧ layout (commit (.vbox { height := some 0 } [.text { width := 10, height := 10 }])
        (layout (.vbox { height := some 0 } [.text { width := 10, height := 10 }])))
      ≠ layout (.vbox { height := some 0 } [.text { width := 10, height := 10 }]) := by
  have h1 : childDy (layout (.vbox { height := some 0 }
      [.text { width := 10, height := 10 }])) 0 = some (-5) := by
    simp [layout, layoutList, vboxFinish, vboxStartY, vboxExtraV, vboxDxOf, vplace,
      contentAlong, maxAccum, jsOr, topSpaceOf, leftSpaceOf, vboxChildExtraH, paddingTop,
      paddingBottom, paddingLeft, paddingRight, childDy, Laid.children, Laid.height,
      Laid.width]
    norm_num
  have h2 : childDy (layout (commit (.vbox { height := some 0 }
      [.text { width := 10, height := 10 }]) (layout (.vbox { height := some 0 }
      [.text { width := 10, height := 10 }])))) 0 = some (-5/2) := by
    simp [layout, layoutList, commit, commitList, vboxFinish, vboxStartY, vboxExtraV,
      vboxDxOf, vplace, contentAlong, maxAccum, jsOr, topSpaceOf, leftSpaceOf,
      vboxChildExtraH, paddingTop, paddingBottom, paddingLeft, paddingRight, childDy,
      Laid.children, Laid.height, Laid.width]
    norm_num
  refine ⟨h1, h2, fun heq => ?_⟩
  rw [heq, h1] at h2
  simp only [Option.some.injEq] at h2
  norm_num at h2

/-- C9 (amended): `layout()` is idempotent — a second run on the (mutated)
tree reproduces every `width`, `height`, `dx` and `dy` — provided no box in
the tree declares a width or height equal to 0.  (`commit` writes the first
run's sizes back onto the tree exactly as the JS mutation leaves it.) -/
theorem C9_idempotent (s : Shape) :
    noZeroSize s = true → layout (commit s (layout s)) = layout s := by
  induction s using shape_induction with
  | htext cfg =>
    intro _
    simp [commit]
  | hvbox cfg cs ih =>
    intro hnz
    rw [noZeroSize, Bool.and_eq_true, Bool.and_eq_true] at hnz
    obtain ⟨⟨hnzw, hnzh⟩, hnzcs⟩ := hnz
    rw [decide_eq_true_eq] at hnzw hnzh
    have hmem := noZeroSizeList_mem cs hnzcs
    have hls : layout (.vbox cfg cs) = vboxFinish cfg (layoutList cs) := by
      simp [layout]
    have hthirds : ((vboxFinish cfg (layoutList cs)).children).map (fun e => e.2.2)
        = layoutList cs := by
      simp only [vboxFinish, Laid.children]
      exact vplace_thirds _ _ _ _
    have hcl : layoutList (commitList cs (vboxFinish cfg (layoutList cs)).children)
        = layoutList cs :=
      commitList_layout cs _ hthirds (fun c hc => ih c hc (hmem c hc))
    rw [hls, commit]
    simp only [layout]
    rw [hcl]
    exact vboxFinish_stable cfg _ (layoutList cs) rfl rfl rfl rfl rfl rfl hnzw hnzh
  | hhbox cfg cs ih =>
    intro hnz
    rw [noZeroSize, Bool.and_eq_true, Bool.and_eq_true] at hnz
    obtain ⟨⟨hnzw, hnzh⟩, hnzcs⟩ := hnz
    rw [decide_eq_true_eq] at hnzw hnzh
    have hmem := noZeroSizeList_mem cs hnzcs
    have hls : layout (.hbox cfg cs) = hboxFinish cfg (layoutList cs) := by
      simp [layout]
    have hthirds : ((hboxFinish cfg (layoutList cs)).children).map (fun e => e.2.2)
        = layoutList cs := by
      simp only [hboxFinish, Laid.children]
      exact hplace_thirds _ _ _ _
    have hcl : layoutList (commitList cs (hboxFinish cfg (layoutList cs)).children)
        = layoutList cs :=
      commitList_layout cs _ hthirds (fun c hc => ih c hc (hmem c hc))
    rw [hls, commit]
    simp only [layout]
    rw [hcl]
    exact hboxFinish_stable cfg _ (layoutList cs) rfl rfl rfl rfl rfl rfl hnzw hnzh

/-- Witness for C9: a `Vbox` with declared height 20 (nonzero) and a 10×10
child laid out twice gives identical results. -/
theorem C9_witness :
    noZeroSize (.vbox { height := some 20 } [.text { width := 10, height := 10 }]) = true
    ∧ layout (commit (.vbox { height := some 20 } [.text { width := 10, height := 10 }])
        (layout (.vbox { height := some 20 } [.text { width := 10, height := 10 }])))
      = layout (.vbox { height := some 20 } [.text { width := 10, height := 10 }]) := by
  have hnz : noZeroSize (.vbox { height := some 20 }
      [.text { width := 10, height := 10 }]) = true := by
    rw [noZeroSize, noZeroSizeList, noZeroSize, noZeroSizeList]
    simp
  exact ⟨hnz, C9_idempotent _ hnz⟩

end Diascript
